import Mathlib

/-!
Verification of the glatformer gameplay-physics layer.

The Rust sources (`src/player.rs`, `src/main.rs`) are shallowly embedded
below.  `f32` scalars are modelled as exact rationals (`ℚ`) wherever the
control flow only uses field arithmetic and comparisons; the camera-zoom and
upright-stabilizer code additionally use `sqrt`/`atan2`, which are modelled
over the reals (`ℝ`).  Bevy/avian collaborators (queries, collision events,
raycasts, commands) are modelled as explicit inputs and an explicit world
state; a Rust panic (failed `assert!` or `unwrap`) is modelled as `none`.
-/

namespace Glatformer

/-- 2-dimensional vector with exact rational coordinates (models `Vec2`). -/
structure Vec2 where
  x : ℚ
  y : ℚ
deriving DecidableEq

instance : Add Vec2 := ⟨fun a b => ⟨a.x + b.x, a.y + b.y⟩⟩

instance : Sub Vec2 := ⟨fun a b => ⟨a.x - b.x, a.y - b.y⟩⟩

instance : Neg Vec2 := ⟨fun a => ⟨-a.x, -a.y⟩⟩

/-- Scalar multiple of a `Vec2` (models `Vec2 * f32`). -/
def Vec2.smul (k : ℚ) (v : Vec2) : Vec2 := ⟨k * v.x, k * v.y⟩

/-- Dot product (models `Vec2::dot`). -/
def Vec2.dot (a b : Vec2) : ℚ := a.x * b.x + a.y * b.y

@[simp] theorem Vec2.add_x (a b : Vec2) : (a + b).x = a.x + b.x := rfl

@[simp] theorem Vec2.add_y (a b : Vec2) : (a + b).y = a.y + b.y := rfl

@[simp] theorem Vec2.sub_x (a b : Vec2) : (a - b).x = a.x - b.x := rfl

@[simp] theorem Vec2.sub_y (a b : Vec2) : (a - b).y = a.y - b.y := rfl

@[simp] theorem Vec2.neg_x (a : Vec2) : (-a).x = -a.x := rfl

@[simp] theorem Vec2.neg_y (a : Vec2) : (-a).y = -a.y := rfl

@[simp] theorem Vec2.smul_x (k : ℚ) (v : Vec2) : (Vec2.smul k v).x = k * v.x := rfl

@[simp] theorem Vec2.smul_y (k : ℚ) (v : Vec2) : (Vec2.smul k v).y = k * v.y := rfl

/-- avian2d's `Rotation`: a 2-D rotation stored as cosine and sine. -/
structure Rot2 where
  cos : ℚ
  sin : ℚ
deriving DecidableEq

/-- `Rotation::rotate`: apply the rotation to a vector. -/
def Rot2.rotate (r : Rot2) (v : Vec2) : Vec2 :=
  ⟨r.cos * v.x - r.sin * v.y, r.sin * v.x + r.cos * v.y⟩

/-! ## Ground detector (`player.rs::is_grounded`) -/

/-- One contact manifold: the surface normals local to each body
(avian2d `ContactManifold`, fields `normal1`/`normal2`). -/
structure ContactManifold where
  normal1 : Vec2
  normal2 : Vec2
deriving DecidableEq

/-- `ContactManifold::global_normal1`: world-space normal of the first body. -/
def ContactManifold.global_normal1 (m : ContactManifold) (rotation : Rot2) : Vec2 :=
  rotation.rotate m.normal1

/-- `ContactManifold::global_normal2`: world-space normal of the second body. -/
def ContactManifold.global_normal2 (m : ContactManifold) (rotation : Rot2) : Vec2 :=
  rotation.rotate m.normal2

/-- The payload of a `Collision` event: the two entities and the manifolds. -/
structure Contacts where
  entity1 : Nat
  entity2 : Nat
  manifolds : List ContactManifold
deriving DecidableEq

/-- A player entity as the `is_grounded` system sees it: its entity id, the
rotation of its `Transform`, and the `Player::is_grounded` flag. -/
structure PlayerG where
  id : Nat
  rotation : Rot2
  is_grounded : Bool
deriving DecidableEq

/-- Processing of one `Collision` event by `is_grounded`: assert exactly one
manifold (`none` models the panic of the failed `assert!`), then update the
player matched as `entity1`, else the player matched as `entity2`, OR-ing in
whether the inverted world-space normal points up steeply enough. -/
def groundedStep (ps : List PlayerG) (c : Contacts) : Option (List PlayerG) :=
  match c.manifolds with
  | [m] =>
      if ps.any (fun p => p.id == c.entity1) then
        some (ps.map fun p =>
          if p.id = c.entity1 then
            { p with is_grounded :=
                p.is_grounded || decide (Vec2.dot (-(m.global_normal1 p.rotation)) ⟨0, 1⟩ > 1/2) }
          else p)
      else if ps.any (fun p => p.id == c.entity2) then
        some (ps.map fun p =>
          if p.id = c.entity2 then
            { p with is_grounded :=
                p.is_grounded || decide (Vec2.dot (-(m.global_normal2 p.rotation)) ⟨0, 1⟩ > 1/2) }
          else p)
      else some ps
  | _ => none

/-- Fold `groundedStep` over the tick's collision events, stopping on panic. -/
def groundedRun : List PlayerG → List Contacts → Option (List PlayerG)
  | ps, [] => some ps
  | ps, c :: cs =>
      match groundedStep ps c with
      | some ps2 => groundedRun ps2 cs
      | none => none

/-- The `is_grounded` system for one tick: reset every player's flag to
`false`, then process all collision events in order. -/
def is_grounded (ps : List PlayerG) (events : List Contacts) : Option (List PlayerG) :=
  groundedRun (ps.map fun p => { p with is_grounded := false }) events

/-- Whether a single collision event touching the player with id `pid` and
transform rotation `rot` yields an inverted extracted normal whose dot product
with straight-up `(0, 1)` exceeds `0.5` (the body matched as `entity1` takes
priority, as in the extractor). -/
def qualifies (pid : Nat) (rot : Rot2) (c : Contacts) : Bool :=
  match c.manifolds with
  | [m] =>
      if pid = c.entity1 then
        decide (Vec2.dot (-(m.global_normal1 rot)) ⟨0, 1⟩ > 1/2)
      else if pid = c.entity2 then
        decide (Vec2.dot (-(m.global_normal2 rot)) ⟨0, 1⟩ > 1/2)
      else false
  | _ => false

theorem groundedStep_single (q : PlayerG) (c : Contacts)
    (h1 : c.manifolds.length = 1) :
    groundedStep [q] c =
      some [{ q with is_grounded := q.is_grounded || qualifies q.id q.rotation c }] := by
  obtain ⟨m, hm⟩ := List.length_eq_one.mp h1
  by_cases he1 : q.id = c.entity1
  · simp [groundedStep, qualifies, hm, he1]
  · by_cases he2 : q.id = c.entity2
    · have hne : c.entity2 ≠ c.entity1 := fun h => he1 (he2.trans h)
      simp [groundedStep, qualifies, hm, he1, he2, hne]
    · simp [groundedStep, qualifies, hm, he1, he2]

theorem groundedRun_single (cs : List Contacts) (q : PlayerG)
    (h1 : ∀ c ∈ cs, c.manifolds.length = 1) :
    groundedRun [q] cs =
      some [{ q with is_grounded := q.is_grounded || cs.any (qualifies q.id q.rotation) }] := by
  induction cs generalizing q with
  | nil =>
      simp [groundedRun]
  | cons c cs ih =>
      have hc : c.manifolds.length = 1 := h1 c (List.mem_cons_self c cs)
      have hcs : ∀ c' ∈ cs, c'.manifolds.length = 1 :=
        fun c' hc' => h1 c' (List.mem_cons_of_mem c hc')
      rw [groundedRun, groundedStep_single q c hc]
      exact (ih { q with is_grounded := q.is_grounded || qualifies q.id q.rotation c } hcs).trans
        (by simp [Bool.or_assoc])

/-- Claim C1: for a tick of the ground detector acting on the (single)
player, the flag is first reset to `false`, and after the tick's collision
events the flag is `true` iff some event touching the player yields an
inverted extracted normal whose dot product with straight-up exceeds `0.5`
(multiple qualifying contacts OR together; the previous tick's flag value
does not matter).  The hypothesis discharges the source's `assert!` that each
event carries exactly one manifold. -/
theorem grounded_iff (p : PlayerG) (events : List Contacts)
    (h1 : ∀ c ∈ events, c.manifolds.length = 1) :
    is_grounded [p] events =
      some [{ p with is_grounded := events.any (qualifies p.id p.rotation) }] := by
  rw [is_grounded, List.map_singleton,
    groundedRun_single events { p with is_grounded := false } h1]
  simp

/-- Witness for C1: a concrete tick with one floor contact (player matched as
`entity1`, identity rotation, local `normal1 = (0, -1)` so the inverted
extracted normal is straight up). -/
theorem grounded_iff_witness :
    (∀ c ∈ [Contacts.mk 7 3 [ContactManifold.mk ⟨0, -1⟩ ⟨0, 1⟩]],
        c.manifolds.length = 1) ∧
      is_grounded [PlayerG.mk 7 ⟨1, 0⟩ false]
          [Contacts.mk 7 3 [ContactManifold.mk ⟨0, -1⟩ ⟨0, 1⟩]] =
        some [PlayerG.mk 7 ⟨1, 0⟩ true] :=
  ⟨by decide,
    (grounded_iff (PlayerG.mk 7 ⟨1, 0⟩ false)
      [Contacts.mk 7 3 [ContactManifold.mk ⟨0, -1⟩ ⟨0, 1⟩]] (by decide)).trans
      (by norm_num [qualifies, ContactManifold.global_normal1, Rot2.rotate, Vec2.dot])⟩

/-! ## Locomotion controller (`player.rs::movement`) -/

/-- The keyboard state the `movement` system reads: `pressed` for the four
direction keys and the slide modifier, `just_pressed` for the jump key. -/
structure KeysState where
  keyA : Bool
  arrowLeft : Bool
  keyD : Bool
  arrowRight : Bool
  spaceJustPressed : Bool
  shiftLeft : Bool
deriving DecidableEq

/-- A bevy `Transform` restricted to the 2-D data this layer touches. -/
structure Transform2 where
  translation : Vec2
  rotation : Rot2
  scale : Vec2
deriving DecidableEq

/-- avian2d `Friction` component (the two coefficients `movement` writes). -/
structure FrictionC where
  static_coefficient : ℚ
  dynamic_coefficient : ℚ
deriving DecidableEq

/-- The player as the `movement` system queries it:
`(&mut Transform, &mut Friction, &mut LinearVelocity, &Player)`. -/
structure PlayerM where
  transform : Transform2
  friction : FrictionC
  velocity : Vec2
  is_grounded : Bool
deriving DecidableEq

/-- The keyboard-input vector: start from `Vec2::ZERO`, subtract `Vec2::X`
while A/Left is held, add `Vec2::X` while D/Right is held. -/
def moveInput (k : KeysState) : Vec2 :=
  let i : Vec2 := ⟨0, 0⟩
  let i := if k.keyA || k.arrowLeft then i - ⟨1, 0⟩ else i
  let i := if k.keyD || k.arrowRight then i + ⟨1, 0⟩ else i
  i

/-- The jump branch: on `just_pressed(Space)` with `is_grounded`, add
`Vec2::Y * 600.0` to the velocity; otherwise leave it alone. -/
def jumpVelocity (k : KeysState) (grounded : Bool) (v : Vec2) : Vec2 :=
  if k.spaceJustPressed && grounded then v + Vec2.smul 600 ⟨0, 1⟩ else v

/-- The slide branch: while ShiftLeft is held drive both friction
coefficients to `0`, otherwise to `1`. -/
def slideFriction (k : KeysState) (f : FrictionC) : FrictionC :=
  if k.shiftLeft then { f with static_coefficient := 0, dynamic_coefficient := 0 }
  else { f with static_coefficient := 1, dynamic_coefficient := 1 }

/-- Rust's `f32::clamp(lo, hi)`. -/
def clampQ (x lo hi : ℚ) : ℚ := if x < lo then lo else if hi < x then hi else x

/-- The acceleration branches: full `delta_v` when the input opposes the
velocity (negative dot product); otherwise add `delta_v` and clamp the
horizontal component only while `|v.x|` is below `max_speed`. -/
def accelStep (input v : Vec2) : Vec2 :=
  let accel : ℚ := 100
  let delta_v := Vec2.smul accel input
  let max_speed : ℚ := 1000
  if Vec2.dot input v < 0 then v + delta_v
  else if |v.x| < max_speed then
    let v2 := v + delta_v
    { v2 with x := clampQ v2.x (-max_speed) max_speed }
  else v

/-- One tick of the `movement` system on the (present) player, in source
order: jump branch, slide branch, acceleration branches.  The transform is
queried mutably but never written. -/
def movement (k : KeysState) (s : PlayerM) : PlayerM :=
  let input := moveInput k
  let v1 := jumpVelocity k s.is_grounded s.velocity
  let f1 := slideFriction k s.friction
  let v2 := accelStep input v1
  { s with friction := f1, velocity := v2 }

theorem jumpVelocity_x (k : KeysState) (g : Bool) (v : Vec2) :
    (jumpVelocity k g v).x = v.x := by
  rw [jumpVelocity]
  split <;> simp

/-- Claim C3: at `velocity.x = max_speed = 1000`, same-direction held input
leaves the horizontal velocity exactly at `1000` (never exceeded), while
opposing held input applies the full acceleration `100` unclamped, so the
horizontal velocity strictly decreases (to `900`). -/
theorem movement_speed_clamp (k : KeysState) (s : PlayerM)
    (hv : s.velocity.x = 1000) :
    ((k.keyD || k.arrowRight) = true → (k.keyA || k.arrowLeft) = false →
      (movement k s).velocity.x = 1000) ∧
    ((k.keyA || k.arrowLeft) = true → (k.keyD || k.arrowRight) = false →
      (movement k s).velocity.x = s.velocity.x - 100 ∧
        (movement k s).velocity.x < s.velocity.x) := by
  have hx : (jumpVelocity k s.is_grounded s.velocity).x = 1000 :=
    (jumpVelocity_x k s.is_grounded s.velocity).trans hv
  constructor
  · intro hr hl
    show (accelStep (moveInput k) (jumpVelocity k s.is_grounded s.velocity)).x = 1000
    rw [accelStep, moveInput]
    simp only [hr, hl, if_true, if_false, Bool.false_eq_true]
    norm_num [Vec2.dot, hx]
  · intro hl hr
    show (accelStep (moveInput k) (jumpVelocity k s.is_grounded s.velocity)).x =
        s.velocity.x - 100 ∧
      (accelStep (moveInput k) (jumpVelocity k s.is_grounded s.velocity)).x < s.velocity.x
    rw [accelStep, moveInput]
    simp only [hl, hr, if_true, if_false, Bool.false_eq_true]
    norm_num [Vec2.dot, hx, hv]

/-- Witness for C3, at a concrete keyboard state and player. -/
theorem movement_speed_clamp_witness :
    (PlayerM.mk ⟨⟨0, 0⟩, ⟨1, 0⟩, ⟨1, 1⟩⟩ ⟨1, 1⟩ ⟨1000, 0⟩ true).velocity.x = 1000 ∧
      ((((KeysState.mk false false true false false false).keyD ||
            (KeysState.mk false false true false false false).arrowRight) = true →
          (((KeysState.mk false false true false false false).keyA ||
            (KeysState.mk false false true false false false).arrowLeft) = false) →
          (movement (KeysState.mk false false true false false false)
              (PlayerM.mk ⟨⟨0, 0⟩, ⟨1, 0⟩, ⟨1, 1⟩⟩ ⟨1, 1⟩ ⟨1000, 0⟩ true)).velocity.x = 1000) ∧
        ((((KeysState.mk false false true false false false).keyA ||
            (KeysState.mk false false true false false false).arrowLeft) = true →
          (((KeysState.mk false false true false false false).keyD ||
            (KeysState.mk false false true false false false).arrowRight) = false) →
          (movement (KeysState.mk false false true false false false)
              (PlayerM.mk ⟨⟨0, 0⟩, ⟨1, 0⟩, ⟨1, 1⟩⟩ ⟨1, 1⟩ ⟨1000, 0⟩ true)).velocity.x =
              (PlayerM.mk ⟨⟨0, 0⟩, ⟨1, 0⟩, ⟨1, 1⟩⟩ ⟨1, 1⟩ ⟨1000, 0⟩ true).velocity.x - 100 ∧
            (movement (KeysState.mk false false true false false false)
                (PlayerM.mk ⟨⟨0, 0⟩, ⟨1, 0⟩, ⟨1, 1⟩⟩ ⟨1, 1⟩ ⟨1000, 0⟩ true)).velocity.x <
              (PlayerM.mk ⟨⟨0, 0⟩, ⟨1, 0⟩, ⟨1, 1⟩⟩ ⟨1, 1⟩ ⟨1000, 0⟩ true).velocity.x))) :=
  ⟨rfl, movement_speed_clamp (KeysState.mk false false true false false false)
    (PlayerM.mk ⟨⟨0, 0⟩, ⟨1, 0⟩, ⟨1, 1⟩⟩ ⟨1, 1⟩ ⟨1000, 0⟩ true) rfl⟩

/-- Claim C6: on a rising edge of the jump key the jump branch adds exactly
the fixed impulse `600` to the vertical velocity when grounded (changing
nothing else), and leaves the velocity unchanged when not grounded. -/
theorem jump_impulse (k : KeysState) (v : Vec2)
    (hk : k.spaceJustPressed = true) :
    jumpVelocity k true v = ⟨v.x, v.y + 600⟩ ∧ jumpVelocity k false v = v := by
  constructor
  · rw [jumpVelocity, hk]
    show v + Vec2.smul 600 ⟨0, 1⟩ = _
    have : Vec2.smul 600 ⟨0, 1⟩ = ⟨0, 600⟩ := by
      rw [Vec2.smul]
      norm_num
    rw [this]
    show (⟨v.x + 0, v.y + 600⟩ : Vec2) = ⟨v.x, v.y + 600⟩
    rw [add_zero]
  · rw [jumpVelocity]
    simp

/-- Witness for C6, at a concrete keyboard state and velocity. -/
theorem jump_impulse_witness :
    (KeysState.mk false false false false true false).spaceJustPressed = true ∧
      (jumpVelocity (KeysState.mk false false false false true false) true ⟨3, 4⟩ =
          ⟨3, 4 + 600⟩ ∧
        jumpVelocity (KeysState.mk false false false false true false) false ⟨3, 4⟩ = ⟨3, 4⟩) :=
  ⟨rfl, jump_impulse (KeysState.mk false false false false true false) ⟨3, 4⟩ rfl⟩

/-- Claim C9: for every tick and input state, `movement` leaves the player's
`Transform` untouched, and the vertical velocity changes only through the
jump branch: the acceleration/clamp branches driven by horizontal key input
never alter it (the input vector's `y` component is always `0`). -/
theorem movement_frame (k : KeysState) (s : PlayerM) :
    (movement k s).transform = s.transform ∧
    (movement k s).velocity.y = (jumpVelocity k s.is_grounded s.velocity).y := by
  refine ⟨rfl, ?_⟩
  show (accelStep (moveInput k) (jumpVelocity k s.is_grounded s.velocity)).y = _
  have hiy : (moveInput k).y = 0 := by
    rw [moveInput]
    split <;> split <;> simp
  rw [accelStep]
  split
  · simp [hiy]
  · split
    · show (jumpVelocity k s.is_grounded s.velocity).y + 100 * (moveInput k).y = _
      rw [hiy]
      ring
    · rfl

/-! ## Grapple controller (`player.rs::hook`)

The entity world is modelled by the commands the `hook` system issues: a
fresh-id counter and the list of entities it has spawned and not yet
despawned (each with the components given at spawn).  The raycast answer for
a tick is an input (`rayHit`), as the physics engine is an external
collaborator.  `none` models a Rust panic: with the actor's position equal to
the world-cursor position, `(coords - pos).normalize()` is degenerate and
`Dir2::try_from(dir).unwrap()` panics. -/

/-- Components of an entity spawned by the grapple controller: the static
anchor body, or the `DistanceJoint` rope with its two bodies and rest
length. -/
inductive EntKind
  | anchor
  | rope (body1 body2 : Nat) (rest_length : ℚ)
deriving DecidableEq

/-- The world as seen through the grapple controller's commands. -/
structure WorldSt where
  nextId : Nat
  alive : List (Nat × EntKind)
deriving DecidableEq

/-- `commands.spawn(..)`: returns the fresh id and the grown world. -/
def spawnEnt (w : WorldSt) (k : EntKind) : Nat × WorldSt :=
  (w.nextId, ⟨w.nextId + 1, (w.nextId, k) :: w.alive⟩)

/-- `commands.entity(id).despawn()`. -/
def despawnEnt (w : WorldSt) (id : Nat) : WorldSt :=
  ⟨w.nextId, w.alive.filter (fun e => e.1 != id)⟩

/-- Whether an entity spawned by the controller is currently alive. -/
def aliveEnt (w : WorldSt) (id : Nat) : Bool :=
  w.alive.any (fun e => e.1 == id)

/-- The grapple controller's state: the world plus the
`Local<Option<(Entity, Entity)>>` holding the `(hook, rope)` pair. -/
structure HookState where
  world : WorldSt
  current : Option (Nat × Nat)
deriving DecidableEq

/-- The per-tick inputs of the `hook` system: the player query result
(entity id and translation, or absent), `mouse.pressed(MouseButton::Right)`,
the cached `MyWorldCoords`, and the raycast answer (`time_of_impact` of the
nearest hit, if the cast is made and hits). -/
structure HookTick where
  player : Option (Nat × Vec2)
  pressedRight : Bool
  coords : Vec2
  rayHit : Option ℚ
deriving DecidableEq

/-- One tick of the `hook` system.  `none` models the panic on a degenerate
actor-to-cursor direction. -/
def hook (s : HookState) (t : HookTick) : Option HookState :=
  match t.player with
  | none => some s
  | some (player, pos) =>
    match s.current, t.pressedRight with
    | none, true =>
        if t.coords = pos then none
        else
          match t.rayHit with
          | some toi =>
              let (hookId, w1) := spawnEnt s.world .anchor
              let (ropeId, w2) := spawnEnt w1 (.rope player hookId toi)
              some ⟨w2, some (hookId, ropeId)⟩
          | none => some s
    | some (hookId, ropeId), false =>
        some ⟨despawnEnt (despawnEnt s.world ropeId) hookId, none⟩
    | _, _ => some s

/-- Whether the tick reaches the `spatial_query.cast_ray` call: a player is
present, the controller is Idle, the fire button is held, and the direction
is non-degenerate. -/
def castAttempted (s : HookState) (t : HookTick) : Bool :=
  match t.player with
  | none => false
  | some (_, pos) => s.current.isNone && t.pressedRight && (t.coords != pos)

/-- Run the `hook` system over a sequence of ticks, stopping on panic. -/
def hookRun : HookState → List HookTick → Option HookState
  | s, [] => some s
  | s, t :: ts =>
      match hook s t with
      | some s2 => hookRun s2 ts
      | none => none

/-- The pairing invariant: Idle means no controller-spawned entity is alive;
Attached means exactly the current `(hook, rope)` pair is alive. -/
def grappleInv (s : HookState) : Prop :=
  match s.current with
  | none => s.world.alive = []
  | some (h, r) => h ≠ r ∧ ∃ k1 k2, s.world.alive = [(r, k1), (h, k2)]

theorem hook_preserves_inv (s : HookState) (t : HookTick) (s2 : HookState)
    (hinv : grappleInv s) (hstep : hook s t = some s2) : grappleInv s2 := by
  obtain ⟨w, cur⟩ := s
  obtain ⟨tp, tpr, tc, tr⟩ := t
  rcases tp with _ | ⟨player, pos⟩
  · simp only [hook] at hstep
    cases hstep
    exact hinv
  · rcases cur with _ | ⟨h, r⟩
    · rcases tpr with _ | _
      · simp only [hook] at hstep
        cases hstep
        exact hinv
      · rcases tr with _ | ⟨toi⟩
        · simp only [hook] at hstep
          by_cases hd : tc = pos
          · rw [if_pos hd] at hstep
            cases hstep
          · rw [if_neg hd] at hstep
            cases hstep
            exact hinv
        · simp only [hook, spawnEnt] at hstep
          by_cases hd : tc = pos
          · rw [if_pos hd] at hstep
            cases hstep
          · rw [if_neg hd] at hstep
            cases hstep
            simp only [grappleInv] at hinv ⊢
            exact ⟨Nat.ne_of_lt (Nat.lt_succ_self _),
              EntKind.rope player w.nextId toi, EntKind.anchor, by rw [hinv]⟩
    · rcases tpr with _ | _
      · simp only [hook] at hstep
        cases hstep
        simp only [grappleInv] at hinv ⊢
        obtain ⟨hne, k1, k2, halive⟩ := hinv
        simp [despawnEnt, halive, hne, Ne.symm hne]
      · simp only [hook] at hstep
        cases hstep
        exact hinv

theorem hookRun_preserves_inv (ts : List HookTick) (s s2 : HookState)
    (hinv : grappleInv s) (hrun : hookRun s ts = some s2) : grappleInv s2 := by
  induction ts generalizing s with
  | nil =>
      rw [hookRun] at hrun
      cases hrun
      exact hinv
  | cons t ts ih =>
      rw [hookRun] at hrun
      rcases hstep : hook s t with _ | s1
      · rw [hstep] at hrun
        cases hrun
      · rw [hstep] at hrun
        exact ih s1 (hook_preserves_inv s t s1 hinv hstep) hrun

/-- Claim C2: starting from a fresh controller (Idle, nothing spawned), every
run of presses/releases that does not panic ends in a state where either the
anchor/rope pair recorded in the controller state are both alive (Attached:
in particular right after a hit-producing press), or the controller is Idle
and no controller-spawned entity is alive at all (in particular right after
the release) — never exactly one of the pair. -/
theorem grapple_pair_atomic (n0 : Nat) (ticks : List HookTick) (s2 : HookState)
    (hrun : hookRun ⟨⟨n0, []⟩, none⟩ ticks = some s2) :
    (∀ h r, s2.current = some (h, r) →
        aliveEnt s2.world h = true ∧ aliveEnt s2.world r = true) ∧
    (s2.current = none → s2.world.alive = []) := by
  have hinv : grappleInv s2 :=
    hookRun_preserves_inv ticks ⟨⟨n0, []⟩, none⟩ s2 rfl hrun
  rw [grappleInv] at hinv
  constructor
  · intro h r hc
    rw [hc] at hinv
    obtain ⟨hne, k1, k2, halive⟩ := hinv
    rw [aliveEnt, aliveEnt, halive]
    simp
  · intro hc
    rw [hc] at hinv
    exact hinv

/-- Witness for C2: a hit-producing press followed by a release. -/
theorem grapple_pair_atomic_witness :
    hookRun ⟨⟨1, []⟩, none⟩
        [HookTick.mk (some (0, ⟨100, 100⟩)) true ⟨500, 0⟩ (some 120),
         HookTick.mk (some (0, ⟨100, 100⟩)) false ⟨500, 0⟩ none] =
      some ⟨⟨3, []⟩, none⟩ ∧
    ((∀ h r, (HookState.mk ⟨3, []⟩ none).current = some (h, r) →
        aliveEnt (HookState.mk ⟨3, []⟩ none).world h = true ∧
          aliveEnt (HookState.mk ⟨3, []⟩ none).world r = true) ∧
      ((HookState.mk ⟨3, []⟩ none).current = none →
        (HookState.mk ⟨3, []⟩ none).world.alive = [])) :=
  ⟨by decide,
    grapple_pair_atomic 1
      [HookTick.mk (some (0, ⟨100, 100⟩)) true ⟨500, 0⟩ (some 120),
       HookTick.mk (some (0, ⟨100, 100⟩)) false ⟨500, 0⟩ none]
      ⟨⟨3, []⟩, none⟩ (by decide)⟩

/-- Counterexample to claim C4: the cast is not edge-triggered.  With the
fire button held on a tick whose cast misses, the controller stays Idle and
the very next tick of the same hold reaches `cast_ray` again (the code
branches on `mouse.pressed`, i.e. held, not on a rising edge). -/
theorem hook_cast_retry_counterexample :
    hookRun ⟨⟨1, []⟩, none⟩ [HookTick.mk (some (0, ⟨100, 100⟩)) true ⟨500, 0⟩ none] =
      some ⟨⟨1, []⟩, none⟩ ∧
    (HookTick.mk (some (0, ⟨100, 100⟩)) true ⟨500, 0⟩ none).pressedRight = true ∧
    castAttempted ⟨⟨1, []⟩, none⟩ (HookTick.mk (some (0, ⟨100, 100⟩)) true ⟨500, 0⟩ none) =
      true := by
  refine ⟨by decide, by decide, by decide⟩

/-- Claim C4 as amended: the Idle-to-Attached cast is gated on the button
being held while the controller is Idle, not on a rising edge: after a tick
whose cast misses, the controller remains Idle, and a new cast is attempted
on the next tick of the same continuous hold. -/
theorem hook_cast_retry (s : HookState) (t1 t2 : HookTick) (p1 p2 : Nat)
    (pos1 pos2 : Vec2)
    (h1 : s.current = none)
    (hp1 : t1.player = some (p1, pos1)) (hpr1 : t1.pressedRight = true)
    (hnd1 : t1.coords ≠ pos1) (hmiss : t1.rayHit = none)
    (hp2 : t2.player = some (p2, pos2)) (hpr2 : t2.pressedRight = true)
    (hnd2 : t2.coords ≠ pos2) :
    castAttempted s t1 = true ∧ hook s t1 = some s ∧ castAttempted s t2 = true := by
  obtain ⟨w, cur⟩ := s
  obtain ⟨tp1, tpr1, tc1, tr1⟩ := t1
  obtain ⟨tp2, tpr2, tc2, tr2⟩ := t2
  replace h1 : cur = none := h1
  replace hp1 : tp1 = some (p1, pos1) := hp1
  replace hpr1 : tpr1 = true := hpr1
  replace hnd1 : tc1 ≠ pos1 := hnd1
  replace hmiss : tr1 = none := hmiss
  replace hp2 : tp2 = some (p2, pos2) := hp2
  replace hpr2 : tpr2 = true := hpr2
  replace hnd2 : tc2 ≠ pos2 := hnd2
  subst h1 hp1 hpr1 hmiss hp2 hpr2
  refine ⟨?_, ?_, ?_⟩
  · simp [castAttempted, hnd1]
  · simp [hook, hnd1]
  · simp [castAttempted, hnd2]

/-- Witness for the amended C4, at concrete ticks of one continuous hold. -/
theorem hook_cast_retry_witness :
    castAttempted ⟨⟨1, []⟩, none⟩ (HookTick.mk (some (0, ⟨100, 100⟩)) true ⟨500, 0⟩ none) =
        true ∧
      hook ⟨⟨1, []⟩, none⟩ (HookTick.mk (some (0, ⟨100, 100⟩)) true ⟨500, 0⟩ none) =
        some ⟨⟨1, []⟩, none⟩ ∧
      castAttempted ⟨⟨1, []⟩, none⟩ (HookTick.mk (some (0, ⟨100, 200⟩)) true ⟨500, 0⟩ none) =
        true :=
  hook_cast_retry ⟨⟨1, []⟩, none⟩
    (HookTick.mk (some (0, ⟨100, 100⟩)) true ⟨500, 0⟩ none)
    (HookTick.mk (some (0, ⟨100, 200⟩)) true ⟨500, 0⟩ none)
    0 0 ⟨100, 100⟩ ⟨100, 200⟩ rfl rfl rfl (by decide) rfl rfl rfl (by decide)

/-- Counterexample to claim C5: with the fire button pressed while the
actor's position coincides with the world-cursor position, the controller
does not perform a no-op — `Dir2::try_from((coords - pos).normalize()).unwrap()`
panics (modelled as `none`). -/
theorem hook_degenerate_counterexample :
    hook ⟨⟨0, []⟩, none⟩ (HookTick.mk (some (0, ⟨100, 100⟩)) true ⟨100, 100⟩ (some 5)) =
        none ∧
      hook ⟨⟨0, []⟩, none⟩ (HookTick.mk (some (0, ⟨100, 100⟩)) true ⟨100, 100⟩ (some 5)) ≠
        some ⟨⟨0, []⟩, none⟩ := by
  refine ⟨by decide, by decide⟩

/-- Claim C5 as amended: whenever the fire input is pressed with the
controller Idle and the actor's position equal to the world-cursor position,
the tick panics (aborts) on the failed `unwrap` of the degenerate direction,
instead of being a silent no-op. -/
theorem hook_degenerate_panics (s : HookState) (t : HookTick) (p : Nat) (pos : Vec2)
    (hcur : s.current = none) (hpl : t.player = some (p, pos))
    (hpr : t.pressedRight = true) (hdeg : t.coords = pos) :
    hook s t = none := by
  obtain ⟨w, cur⟩ := s
  obtain ⟨tp, tpr, tc, tr⟩ := t
  replace hcur : cur = none := hcur
  replace hpl : tp = some (p, pos) := hpl
  replace hpr : tpr = true := hpr
  replace hdeg : tc = pos := hdeg
  subst hcur hpl hpr hdeg
  simp [hook]

/-- Witness for the amended C5, at a concrete degenerate tick. -/
theorem hook_degenerate_panics_witness :
    hook ⟨⟨0, []⟩, none⟩ (HookTick.mk (some (0, ⟨100, 100⟩)) true ⟨100, 100⟩ (some 5)) =
      none :=
  hook_degenerate_panics ⟨⟨0, []⟩, none⟩
    (HookTick.mk (some (0, ⟨100, 100⟩)) true ⟨100, 100⟩ (some 5))
    0 ⟨100, 100⟩ rfl rfl rfl rfl

/-- Claim C10: on a tick with no player entity, the `hook` system is a total
no-op, even on the release path: an Attached pair from a previous tick is not
despawned and the state stays Attached when the fire button is released while
the player is absent. -/
theorem hook_no_player_no_release (s : HookState) (t : HookTick) (h r : Nat)
    (hp : t.player = none) (_hc : s.current = some (h, r))
    (_hm : t.pressedRight = false) :
    hook s t = some s := by
  rw [hook, hp]

/-- Witness for C10: a concrete Attached state, button released, no player. -/
theorem hook_no_player_no_release_witness :
    hook ⟨⟨7, [(6, EntKind.rope 0 5 120), (5, EntKind.anchor)]⟩, some (5, 6)⟩
        (HookTick.mk none false ⟨500, 0⟩ none) =
      some ⟨⟨7, [(6, EntKind.rope 0 5 120), (5, EntKind.anchor)]⟩, some (5, 6)⟩ :=
  hook_no_player_no_release
    ⟨⟨7, [(6, EntKind.rope 0 5 120), (5, EntKind.anchor)]⟩, some (5, 6)⟩
    (HookTick.mk none false ⟨500, 0⟩ none) 5 6 rfl rfl rfl

/-! ## Camera zoom (`main.rs::zoom_camera`)

The camera's `Transform::scale` is a `Vec3`; `zoom_camera` moves it along its
own normalized direction and rejects updates whose result has non-positive
dot product with that direction.  `f32` is modelled as `ℝ` here because the
source uses `normalize` (a square root). -/

/-- 3-dimensional real vector (models `Vec3`). -/
@[ext]
structure Vec3R where
  x : ℝ
  y : ℝ
  z : ℝ

/-- `Vec3::dot`. -/
def dot3 (a b : Vec3R) : ℝ := a.x * b.x + a.y * b.y + a.z * b.z

/-- Component-wise sum (models `Vec3 + Vec3`). -/
def add3 (a b : Vec3R) : Vec3R := ⟨a.x + b.x, a.y + b.y, a.z + b.z⟩

/-- Scalar multiple (models `Vec3 * f32`). -/
def smul3 (t : ℝ) (v : Vec3R) : Vec3R := ⟨t * v.x, t * v.y, t * v.z⟩

/-- `Vec3::length`. -/
noncomputable def length3 (v : Vec3R) : ℝ := Real.sqrt (dot3 v v)

/-- `Vec3::normalize`: the vector times the reciprocal of its length. -/
noncomputable def normalize3 (v : Vec3R) : Vec3R := smul3 (length3 v)⁻¹ v

/-- bevy's `MouseScrollUnit`. -/
inductive MouseScrollUnit
  | line
  | pixel
deriving DecidableEq

/-- A `MouseWheel` event (vertical scroll amount and its unit). -/
structure MouseWheelEvent where
  unit : MouseScrollUnit
  y : ℚ
deriving DecidableEq

/-- The summed scroll amount of the tick: line events at full weight, pixel
events scaled by `0.1`. -/
def scrollAmount (evs : List MouseWheelEvent) : ℚ :=
  (evs.map fun ev =>
    match ev.unit with
    | MouseScrollUnit.line => ev.y
    | MouseScrollUnit.pixel => ev.y * (1 / 10)).sum

open Classical in
/-- One tick of `zoom_camera` acting on the camera transform's scale. -/
noncomputable def zoom_camera (scale : Vec3R) (evs : List MouseWheelEvent) : Vec3R :=
  let amount : ℝ := ((scrollAmount evs : ℚ) : ℝ)
  let amount := -amount
  let unit := normalize3 scale
  let new := add3 scale (smul3 (amount * (1 / 10)) unit)
  if 0 < dot3 new unit then new else scale

theorem dot3_self_eq (v : Vec3R) : dot3 v v = v.x ^ 2 + v.y ^ 2 + v.z ^ 2 := by
  rw [dot3]
  ring

theorem dot3_self_nonneg (v : Vec3R) : 0 ≤ dot3 v v := by
  rw [dot3_self_eq]
  positivity

theorem eq_zero_of_dot3_self (v : Vec3R) (h : dot3 v v = 0) : v = ⟨0, 0, 0⟩ := by
  rw [dot3_self_eq] at h
  have hx : v.x ^ 2 = 0 := by nlinarith [sq_nonneg v.x, sq_nonneg v.y, sq_nonneg v.z]
  have hy : v.y ^ 2 = 0 := by nlinarith [sq_nonneg v.x, sq_nonneg v.y, sq_nonneg v.z]
  have hz : v.z ^ 2 = 0 := by nlinarith [sq_nonneg v.x, sq_nonneg v.y, sq_nonneg v.z]
  ext
  · exact (pow_eq_zero_iff (by norm_num)).mp hx
  · exact (pow_eq_zero_iff (by norm_num)).mp hy
  · exact (pow_eq_zero_iff (by norm_num)).mp hz

theorem dot3_self_pos (v : Vec3R) (hv : v ≠ ⟨0, 0, 0⟩) : 0 < dot3 v v :=
  lt_of_le_of_ne (dot3_self_nonneg v) fun h => hv (eq_zero_of_dot3_self v h.symm)

theorem length3_pos (v : Vec3R) (hv : v ≠ ⟨0, 0, 0⟩) : 0 < length3 v :=
  Real.sqrt_pos.mpr (dot3_self_pos v hv)

theorem length3_mul_self (v : Vec3R) : length3 v * length3 v = dot3 v v :=
  Real.mul_self_sqrt (dot3_self_nonneg v)

theorem smul3_smul3 (a b : ℝ) (v : Vec3R) : smul3 a (smul3 b v) = smul3 (a * b) v := by
  ext <;> (simp only [smul3]; ring)

theorem smul3_one (v : Vec3R) : smul3 1 v = v := by
  ext <;> simp [smul3]

theorem smul3_ne_zero (t : ℝ) (v : Vec3R) (ht : 0 < t) (hv : v ≠ ⟨0, 0, 0⟩) :
    smul3 t v ≠ ⟨0, 0, 0⟩ := by
  intro h
  apply hv
  have hx := congrArg Vec3R.x h
  have hy := congrArg Vec3R.y h
  have hz := congrArg Vec3R.z h
  simp only [smul3] at hx hy hz
  ext
  · exact (mul_eq_zero.mp hx).resolve_left (ne_of_gt ht)
  · exact (mul_eq_zero.mp hy).resolve_left (ne_of_gt ht)
  · exact (mul_eq_zero.mp hz).resolve_left (ne_of_gt ht)

theorem zoom_camera_scales (v : Vec3R) (evs : List MouseWheelEvent)
    (hv : v ≠ ⟨0, 0, 0⟩) :
    ∃ c : ℝ, 0 < c ∧ zoom_camera v evs = smul3 c v := by
  have hn : 0 < length3 v := length3_pos v hv
  set a : ℝ := -((scrollAmount evs : ℚ) : ℝ) with ha
  have hnew : add3 v (smul3 (a * (1 / 10)) (normalize3 v)) =
      smul3 (1 + a * (1 / 10) * (length3 v)⁻¹) v := by
    ext <;> (simp only [add3, smul3, normalize3]; ring)
  have hdot : ∀ c : ℝ, dot3 (smul3 c v) (normalize3 v) = c * length3 v := by
    intro c
    have : (length3 v)⁻¹ * (length3 v * length3 v) = length3 v := by
      rw [← mul_assoc, inv_mul_cancel₀ (ne_of_gt hn), one_mul]
    calc dot3 (smul3 c v) (normalize3 v)
        = c * ((length3 v)⁻¹ * dot3 v v) := by
          simp only [dot3, smul3, normalize3]
          ring
      _ = c * length3 v := by rw [← length3_mul_self, this]
  rw [zoom_camera]
  simp only [← ha, hnew]
  by_cases h : 0 < dot3 (smul3 (1 + a * (1 / 10) * (length3 v)⁻¹) v) (normalize3 v)
  · refine ⟨1 + a * (1 / 10) * (length3 v)⁻¹, ?_, if_pos h⟩
    rw [hdot] at h
    by_contra hc
    push_neg at hc
    nlinarith
  · exact ⟨1, one_pos, (if_neg h).trans (smul3_one v).symm⟩

/-- Claim C7: for every sequence of scroll-input ticks, the camera scale
stays a positive multiple of its starting value — its sign (direction) never
flips, because any single update whose result would flip relative to the
current direction is rejected and leaves the scale unchanged. -/
theorem zoom_sign_preserved (v : Vec3R) (ticks : List (List MouseWheelEvent))
    (hv : v ≠ ⟨0, 0, 0⟩) :
    ∃ t : ℝ, 0 < t ∧ List.foldl zoom_camera v ticks = smul3 t v := by
  induction ticks generalizing v with
  | nil => exact ⟨1, one_pos, (smul3_one v).symm⟩
  | cons e es ih =>
      obtain ⟨c, hc, hstep⟩ := zoom_camera_scales v e hv
      obtain ⟨t2, ht2, hrest⟩ := ih (zoom_camera v e) (hstep ▸ smul3_ne_zero c v hc hv)
      refine ⟨t2 * c, mul_pos ht2 hc, ?_⟩
      rw [List.foldl_cons, hrest, hstep, smul3_smul3]

/-- Witness for C7: the default camera scale `(1, 1, 1)` and one tick with a
single line-unit scroll event. -/
theorem zoom_sign_preserved_witness :
    (Vec3R.mk 1 1 1 ≠ Vec3R.mk 0 0 0) ∧
      ∃ t : ℝ, 0 < t ∧
        List.foldl zoom_camera (Vec3R.mk 1 1 1) [[MouseWheelEvent.mk MouseScrollUnit.line 1]] =
          smul3 t (Vec3R.mk 1 1 1) :=
  ⟨fun h => one_ne_zero (congrArg Vec3R.x h),
    zoom_sign_preserved (Vec3R.mk 1 1 1) [[MouseWheelEvent.mk MouseScrollUnit.line 1]]
      fun h => one_ne_zero (congrArg Vec3R.x h)⟩

/-! ## Orientation stabilizer (`main.rs::keep_upright_impl`) -/

/-- 2-dimensional real vector, for the contact normal fed to the
stabilizer. -/
structure Vec2R where
  x : ℝ
  y : ℝ

/-- `f32::atan2(y, x)`: the angle of the point `(x, y)`, in `(-π, π]`. -/
noncomputable def atan2 (y x : ℝ) : ℝ := Complex.arg ⟨x, y⟩

/-- `Quat::angle_between` for two rotations about the Z axis given by their
angles: the magnitude of their angular difference reduced to `[0, π]`. -/
noncomputable def quat_angle_between (a b : ℝ) : ℝ :=
  |Real.Angle.toReal ((a : Real.Angle) - (b : Real.Angle))|

open Classical in
/-- `keep_upright_impl`, with the entity's rotation represented by its
Z-rotation angle: take the normal's angle plus `π/2`, snap values within
`0.01` of zero to exactly zero, and overwrite the rotation only when it
differs from the new angle by more than `0.005`. -/
noncomputable def keep_upright_impl (rotation : ℝ) (normal : Vec2R) : ℝ :=
  let angle := atan2 normal.y normal.x
  let angle := angle + Real.pi / 2
  let angle := if |angle| < 0.01 then 0 else angle
  if 0.005 < quat_angle_between rotation angle then angle else rotation

/-- Claim C8: applying the orientation stabilizer twice in succession with
the same contact normal changes nothing after the first application: the
second application recomputes the same snapped angle, which is within the
`0.005` rad hysteresis band of the rotation the first application left. -/
theorem keep_upright_idempotent (r : ℝ) (n : Vec2R) :
    keep_upright_impl (keep_upright_impl r n) n = keep_upright_impl r n := by
  simp only [keep_upright_impl]
  by_cases h : 0.005 < quat_angle_between r
      (if |atan2 n.y n.x + Real.pi / 2| < 0.01 then 0 else atan2 n.y n.x + Real.pi / 2)
  · rw [if_pos h]
    exact ite_self _
  · rw [if_neg h, if_neg h]

end Glatformer
